import Mathlib

/-!
Verification of the annotation-to-response pipeline of the image dataset
server (`utils/utils.py`, `utils/constants.py`, `utils/aliases.py`).

Shallow embedding conventions:
* Python exceptions are modelled with `Except Err`; `Err.indexError`
  corresponds to Python's `IndexError` and `Err.valueError` to `ValueError`.
* The filesystem is a value of type `FS`: `FS.images g` is the list of file
  names returned by `os.scandir` on the group's `images` directory (regular
  files, OS order), and `FS.labels g stem` is the `readlines()` content of
  the label file `.{prefix}/labels/{stem}.txt` (`none` when
  `os.path.exists` is false for that path).
* Coordinate values are carried as their source tokens (`String`) instead
  of IEEE floats: no claim depends on the numeric value of a coordinate,
  only on token arity and grouping.  The fallibility of `float()` is
  modelled faithfully: `pyFloat` raises `ValueError` exactly on tokens the
  Python float grammar rejects (`isPyFloat`).
* `list(set(...))` is modelled by `List.dedup` (Python's set iteration
  order is unspecified; any fixed deduplication represents one run).
* Python's `sorted` (a stable sort) is modelled by `List.insertionSort`,
  which is stable for the same comparator; stability is proved below.
-/

/-- Python `str` whitespace characters (as used by `str.split()` / `str.strip()`). -/
def isPySpace (c : Char) : Bool :=
  c == ' ' || c == '\t' || c == '\n' || c == '\r' || c == '\x0b' || c == '\x0c'

/-- Characters of `s.strip()`. -/
def pyStripChars (l : List Char) : List Char :=
  ((l.dropWhile isPySpace).reverse.dropWhile isPySpace).reverse

/-- Python `str.strip()`. -/
def pyStrip (s : String) : String :=
  ⟨pyStripChars s.data⟩

/-- Helper for `splitWS`: `acc` holds the characters of the token currently
being read, in reverse. -/
def splitWSAux : List Char → List Char → List (List Char)
  | [], acc => if acc = [] then [] else [acc.reverse]
  | c :: cs, acc =>
    if isPySpace c then
      if acc = [] then splitWSAux cs [] else acc.reverse :: splitWSAux cs []
    else splitWSAux cs (c :: acc)

/-- Whitespace splitting on character lists: maximal runs of non-whitespace
characters, in order (the semantics of Python's no-argument `str.split()`). -/
def splitWS (l : List Char) : List (List Char) :=
  splitWSAux l []

/-- Python `str.split()` with no separator argument. -/
def pySplit (s : String) : List String :=
  (splitWS s.data).map fun l => ⟨l⟩

/-- Numeric value of a digit string (most significant first). -/
def digitsVal (ds : List Char) : Nat :=
  ds.foldl (fun a c => a * 10 + (c.toNat - 48)) 0

/-- Python `int(s)`: optional surrounding whitespace, optional sign, digits;
`none` models the `ValueError` raised on any other shape. -/
def pyInt (s : String) : Option Int :=
  match pyStripChars s.data with
  | [] => none
  | '+' :: ds => if ds ≠ [] ∧ ds.all Char.isDigit then some (digitsVal ds) else none
  | '-' :: ds => if ds ≠ [] ∧ ds.all Char.isDigit then some (-(digitsVal ds : Int)) else none
  | ds => if ds.all Char.isDigit then some (digitsVal ds) else none

/-- Python list subscription `l[i]` for `i : int`: non-negative indices from
the front, negative indices from the back; `none` models `IndexError`. -/
def pyIndex (l : List String) (i : Int) : Option String :=
  if 0 ≤ i then l[i.toNat]?
  else if 0 ≤ (l.length : Int) + i then l[((l.length : Int) + i).toNat]? else none

/-- Python `pathlib.PurePath(name).stem`: the name with its final suffix
removed, where a suffix needs a dot that is neither the first nor the last
character. -/
def pyStem (name : String) : String :=
  let cs := name.data
  let ri := cs.reverse.findIdx fun c => c == '.'
  if ri = cs.length then name
  else
    let i := cs.length - 1 - ri
    if 0 < i ∧ i < cs.length - 1 then ⟨cs.take i⟩ else name

/-- Python `list(set(xs))` for string lists: the distinct elements, in one
fixed order (Python's set iteration order is unspecified). -/
def pyListSet (l : List String) : List String :=
  l.dedup

deriving instance DecidableEq for Except

/-- The Python exceptions that the pipeline can raise. -/
inductive Err where
  | indexError
  | valueError
deriving DecidableEq

/-- Constant `TEST_FILES_PREFIX` from `utils/constants.py`. -/
def TEST_FILES_PREFIX : String := "/images/test"

/-- Constant `TRAIN_FILES_PREFIX` from `utils/constants.py`. -/
def TRAIN_FILES_PREFIX : String := "/images/train"

/-- Constant `VALID_FILES_PREFIX` from `utils/constants.py`. -/
def VALID_FILES_PREFIX : String := "/images/valid"

/-- Constant `IMAGES_PREFIX` from `utils/constants.py`. -/
def IMAGES_PREFIX : String := "images"

/-- Constant `LABELS_PREFIX` from `utils/constants.py`. -/
def LABELS_PREFIX : String := "labels"

/-- The fixed 7-entry class catalog `CLASSES` from `utils/constants.py`. -/
def CLASSES : List String :=
  ["elbow positive", "fingers positive", "forearm fracture", "humerus fracture",
   "humerus", "shoulder fracture", "wrist positive"]

/-- Enumeration `GroupName` from `utils/constants.py`. -/
inductive GroupName where
  | all
  | train
  | test
  | valid
deriving DecidableEq, Fintype

/-- Alias `Polygon` from `utils/aliases.py`: a class label with its vertex list; each
vertex is the list of its coordinate tokens. -/
structure Polygon where
  «class» : String
  vertices : List (List String)
deriving DecidableEq

/-- Alias `ResObject` from `utils/aliases.py`: the emitted image record. -/
structure ResObject where
  filename : String
  image_path : String
  classes : List String
  polygons : List Polygon
deriving DecidableEq

/-- Filesystem state seen by the pipeline: `images g` is the scan of the
group's images directory; `labels g stem` is the line list of the label file
for `stem` (keyed by the path `.{prefix}/labels/{stem}.txt`), `none` when
that file does not exist. -/
structure FS where
  images : GroupName → List String
  labels : GroupName → String → Option (List String)

/-- Function `get_class_by_id` of `utils.py`: `CLASSES[id]` with Python list indexing. -/
def get_class_by_id (id : Int) : Except Err String :=
  match pyIndex CLASSES id with
  | some c => Except.ok c
  | none => Except.error Err.indexError

/-- Function `get_class_id` of `utils.py`: `int(line[0])` on the token list (`IndexError`
on an empty list, `ValueError` when the token is not an integer literal). -/
def get_class_id (line : List String) : Except Err Int :=
  match line with
  | [] => Except.error Err.indexError
  | t :: _ =>
    match pyInt t with
    | some n => Except.ok n
    | none => Except.error Err.valueError

/-- Function `get_prefix` of `utils.py`: dictionary lookup with default `""`. -/
def get_prefix : GroupName → String
  | GroupName.test => TEST_FILES_PREFIX
  | GroupName.train => TRAIN_FILES_PREFIX
  | GroupName.valid => VALID_FILES_PREFIX
  | GroupName.all => ""

/-- Splitting a character list at every occurrence of `sep` (the semantics of
Python's `str.split(sep)` for a one-character separator): `[]` yields `[[]]`,
adjacent separators yield empty pieces. -/
def splitOnChar (sep : Char) : List Char → List (List Char)
  | [] => [[]]
  | c :: cs =>
    if c = sep then [] :: splitOnChar sep cs
    else
      match splitOnChar sep cs with
      | [] => [[c]]
      | t :: ts => (c :: t) :: ts

/-- Python `s.split(",")`. -/
def pySplitComma (s : String) : List String :=
  (splitOnChar ',' s.data).map fun l => ⟨l⟩

/-- Function `is_image_class_in_filter_classes` of `utils.py`:
`bool(set(image_classes) & set(filter_classes.split(",")))` — the two sets
intersect exactly when some image class occurs among the comma-separated
filter entries. -/
def is_image_class_in_filter_classes (image_classes : List String) (filter_classes : String) : Bool :=
  image_classes.any fun c => (pySplitComma filter_classes).contains c

/-- The chunking comprehension `[vertices[i : i + 2] for i in range(0, len(vertices), 2)]`. -/
def chunkPairs : List String → List (List String)
  | [] => []
  | [a] => [[a]]
  | a :: b :: rest => [a, b] :: chunkPairs rest

/-- Continuation of a digit part after its first digit: ASCII digits with
single underscores allowed between digits (Python numeric literal rule). -/
def digitPartRest : List Char → Bool
  | [] => true
  | '_' :: c :: cs => c.isDigit && digitPartRest cs
  | ['_'] => false
  | c :: cs => c.isDigit && digitPartRest cs

/-- A Python `digitpart`: nonempty ASCII digits, underscores only between
digits. -/
def digitPart : List Char → Bool
  | [] => false
  | c :: cs => c.isDigit && digitPartRest cs

/-- The exponent tail of a float literal after `e`/`E`: optional sign, then
a digit part. -/
def expPart : List Char → Bool
  | '+' :: cs => digitPart cs
  | '-' :: cs => digitPart cs
  | cs => digitPart cs

/-- The mantissa of a float literal: `digits`, `digits.`, `digits.digits`
or `.digits`. -/
def mantissaOk (l : List Char) : Bool :=
  match splitOnChar '.' l with
  | [a] => digitPart a
  | [a, b] => (digitPart a && (b.isEmpty || digitPart b)) || (a.isEmpty && digitPart b)
  | _ => false

/-- The part of a float literal after the optional leading sign:
case-insensitive `inf`/`infinity`/`nan`, or a mantissa with an optional
exponent. -/
def floatBody (l : List Char) : Bool :=
  let low := l.map Char.toLower
  if low == "inf".data || low == "infinity".data || low == "nan".data then true
  else
    match splitOnChar 'e' low with
    | [m] => mantissaOk m
    | [m, ex] => mantissaOk m && expPart ex
    | _ => false

/-- Acceptance grammar of Python `float(s)` for ASCII input: surrounding
whitespace, optional sign, then `inf`/`infinity`/`nan` (case-insensitive) or
a decimal mantissa with optional exponent, underscores between digits. -/
def isPyFloat (s : String) : Bool :=
  match pyStripChars s.data with
  | [] => false
  | '+' :: cs => floatBody cs
  | '-' :: cs => floatBody cs
  | cs => floatBody cs

/-- Python `float(s)`: raises `ValueError` on tokens the float grammar
rejects; an accepted token represents its own value (no claim depends on
the numeric value of a coordinate, only on token arity and grouping). -/
def pyFloat (s : String) : Except Err String :=
  if isPyFloat s then Except.ok s else Except.error Err.valueError

/-- Python `list(map(f, xs))` when `f` can raise: the elements in order, or
the first exception. -/
def mapE (f : α → Except Err β) : List α → Except Err (List β)
  | [] => Except.ok []
  | x :: xs =>
    match f x with
    | Except.error e => Except.error e
    | Except.ok y =>
      match mapE f xs with
      | Except.error e => Except.error e
      | Except.ok ys => Except.ok (y :: ys)

/-- Function `build_polygon` of `utils.py`: split the row, resolve the
class, convert the remaining tokens with `float()` (`mapE pyFloat` models
`list(map(float, parts[1:]))`, raising `ValueError` on a malformed
coordinate token), and group the converted tokens in pairs. -/
def build_polygon (row : String) : Except Err Polygon := do
  let parts := pySplit (pyStrip row)
  let class_idx ← get_class_id parts
  let class_label ← get_class_by_id class_idx
  let vertices ← mapE pyFloat parts.tail
  pure ⟨class_label, chunkPairs vertices⟩

/-- Function `build_res_object` of `utils.py`. -/
def build_res_object (filename image_path : String) (classes : List String)
    (polygons : List Polygon) : ResObject :=
  ⟨filename, image_path, classes, polygons⟩

/-- The f-string `f"{prefix}/{IMAGES_PREFIX}/{image.name}"` of `process_image`. -/
def imagePathOf (group : GroupName) (name : String) : String :=
  get_prefix group ++ "/" ++ IMAGES_PREFIX ++ "/" ++ name

/-- Function `process_image` of `utils.py`. -/
def process_image (image : String) (filter_classes : Option String) (group : GroupName)
    (fs : FS) : Except Err (Option ResObject) :=
  let filename := pyStem image
  let image_path := imagePathOf group image
  match fs.labels group filename with
  | none => Except.ok none
  | some content =>
    if content.length = 0 then
      Except.ok (some (build_res_object filename image_path [] []))
    else do
      let polygons ← mapE build_polygon content
      let classes := pyListSet (polygons.map fun poly => poly.«class»)
      match filter_classes with
      | some fc =>
        if fc ≠ "" ∧ pyStrip fc ≠ "" ∧ ¬ is_image_class_in_filter_classes classes fc then
          pure none
        else
          pure (some (build_res_object filename image_path classes polygons))
      | none => pure (some (build_res_object filename image_path classes polygons))

/-- Function `filter_empty` of `utils.py`: drop the `None` entries. -/
def filter_empty (data : List (Option ResObject)) : List ResObject :=
  data.filterMap id

/-- The comparison used by `sorted(..., key=lambda x: x["filename"])`:
code-point lexicographic order on the `filename` strings, spelled out on the
character lists (`byName_iff` below identifies it with `≤` on `String`). -/
def byName (a b : ResObject) : Prop :=
  ¬ List.lt b.filename.data a.filename.data

/-- A structural (hence kernel-reducible) decision procedure for `byName`. -/
instance decByName : DecidableRel byName :=
  fun a b =>
    match List.hasDecidableLt b.filename.data a.filename.data with
    | isTrue h => isFalse fun hn => hn h
    | isFalse h => isTrue h

/-- Function `sort_by_name` of `utils.py`: Python's stable `sorted` keyed by `filename`.
`sorted` is a stable comparison sort; any stable sort with the same
comparator produces the same output list, so insertion sort (stable, see
`sort_by_name_filter` below) models it exactly. -/
def sort_by_name (data : List ResObject) : List ResObject :=
  data.insertionSort byName

/-- Function `prepare_all_data` of `utils.py`: the list literal forces the three maps in
the order test, train, valid, then filters and sorts. -/
def prepare_all_data (test_images train_images valid_images : List String)
    (classes : Option String) (fs : FS) : Except Err (List ResObject) := do
  let t ← mapE (fun image => process_image image classes GroupName.test fs) test_images
  let tr ← mapE (fun image => process_image image classes GroupName.train fs) train_images
  let v ← mapE (fun image => process_image image classes GroupName.valid fs) valid_images
  pure (sort_by_name (filter_empty (t ++ tr ++ v)))

/-- Function `prepare_group_data` of `utils.py`. -/
def prepare_group_data (classes : Option String) (group : GroupName)
    (images : List String) (fs : FS) : Except Err (List ResObject) := do
  let processed_images ← mapE (fun image => process_image image classes group fs) images
  pure (sort_by_name (filter_empty processed_images))

/-- Function `generate_response` of `utils.py`. -/
def generate_response (group : GroupName) (classes : Option String) (fs : FS) :
    Except Err (List ResObject) :=
  if group = GroupName.all then
    prepare_all_data (fs.images GroupName.test) (fs.images GroupName.train)
      (fs.images GroupName.valid) classes fs
  else
    prepare_group_data classes group (fs.images group) fs

/-! ### Concrete filesystem states used as witnesses -/

/-- One train image whose label line has an odd coordinate count. -/
def fsOdd : FS where
  images := fun g => match g with
    | GroupName.train => ["img.jpg"]
    | _ => []
  labels := fun g s => match g, s with
    | GroupName.train, "img" => some ["2 0.1 0.2 0.3"]
    | _, _ => none

/-- One train image whose label file exists and is empty. -/
def fsEmpty : FS where
  images := fun g => match g with
    | GroupName.train => ["a.jpg"]
    | _ => []
  labels := fun g s => match g, s with
    | GroupName.train, "a" => some []
    | _, _ => none

/-- Two train images with well-formed label files. -/
def fsFull : FS where
  images := fun g => match g with
    | GroupName.train => ["b.jpg", "a.jpg"]
    | _ => []
  labels := fun g s => match g, s with
    | GroupName.train, "a" => some ["2 0.1 0.2 0.3 0.4"]
    | GroupName.train, "b" => some ["0 0.5 0.5", "6 0.7 0.8"]
    | _, _ => none

/-- One train image with no label file at all. -/
def fsNoLabel : FS where
  images := fun g => match g with
    | GroupName.train => ["x.jpg"]
    | _ => []
  labels := fun _ _ => none

/-- One train image whose label line has the out-of-range class index 999. -/
def fsBad : FS where
  images := fun g => match g with
    | GroupName.train => ["z.jpg"]
    | _ => []
  labels := fun g s => match g, s with
    | GroupName.train, "z" => some ["999 0.1 0.2"]
    | _, _ => none

/-- One train image whose label file holds a single whitespace-only line. -/
def fsWS : FS where
  images := fun g => match g with
    | GroupName.train => ["w.jpg"]
    | _ => []
  labels := fun g s => match g, s with
    | GroupName.train, "w" => some ["\n"]
    | _, _ => none

/-- One image per concrete group, with disjoint filenames. -/
def fsThree : FS where
  images := fun g => match g with
    | GroupName.test => ["t.jpg"]
    | GroupName.train => ["r.jpg"]
    | GroupName.valid => ["v.jpg"]
    | GroupName.all => []
  labels := fun g s => match g, s with
    | GroupName.test, "t" => some ["0 0.1 0.2"]
    | GroupName.train, "r" => some ["1 0.3 0.4"]
    | GroupName.valid, "v" => some ["4 0.5 0.6"]
    | _, _ => none

/-! ### The sort comparator is the lexicographic order on filenames -/

theorem byName_iff (a b : ResObject) : byName a b ↔ a.filename ≤ b.filename := by
  rw [String.le_iff_toList_le, ← not_lt]
  exact not_congr (List.lt_iff_lex_lt b.filename.toList a.filename.toList)

instance : IsTotal ResObject byName := by
  constructor
  intro a b
  rw [byName_iff, byName_iff]
  exact le_total a.filename b.filename

instance : IsTrans ResObject byName := by
  constructor
  intro a b c hab hbc
  rw [byName_iff] at hab hbc ⊢
  exact le_trans hab hbc

/-! ### Lemmas about `mapE` -/

theorem mapE_ok_mem_src {α β : Type} {f : α → Except Err β} :
    ∀ {l : List α} {ys : List β}, mapE f l = Except.ok ys →
      ∀ {x : α}, x ∈ l → ∃ y, f x = Except.ok y ∧ y ∈ ys := by
  intro l
  induction l with
  | nil => intro ys _ x hx; cases hx
  | cons a as ih =>
    intro ys h x hx
    cases hfa : f a with
    | error e =>
      simp only [mapE, hfa] at h
      exact Except.noConfusion h
    | ok y =>
      cases hrest : mapE f as with
      | error e =>
        simp only [mapE, hfa, hrest] at h
        exact Except.noConfusion h
      | ok ys' =>
        simp only [mapE, hfa, hrest] at h
        cases h
        rcases List.mem_cons.mp hx with hxa | hxas
        · exact ⟨y, by rw [hxa]; exact hfa, List.mem_cons_self _ _⟩
        · obtain ⟨y', hy', hmem⟩ := ih hrest hxas
          exact ⟨y', hy', List.mem_cons_of_mem _ hmem⟩

theorem mapE_ok_mem_out {α β : Type} {f : α → Except Err β} :
    ∀ {l : List α} {ys : List β}, mapE f l = Except.ok ys →
      ∀ {y : β}, y ∈ ys → ∃ x, x ∈ l ∧ f x = Except.ok y := by
  intro l
  induction l with
  | nil =>
    intro ys h y hy
    simp only [mapE] at h
    cases h
    cases hy
  | cons a as ih =>
    intro ys h y hy
    cases hfa : f a with
    | error e =>
      simp only [mapE, hfa] at h
      exact Except.noConfusion h
    | ok y' =>
      cases hrest : mapE f as with
      | error e =>
        simp only [mapE, hfa, hrest] at h
        exact Except.noConfusion h
      | ok ys' =>
        simp only [mapE, hfa, hrest] at h
        cases h
        rcases List.mem_cons.mp hy with hya | hyas
        · exact ⟨a, List.mem_cons_self _ _, by rw [hya]; exact hfa⟩
        · obtain ⟨x, hx, hfx⟩ := ih hrest hyas
          exact ⟨x, List.mem_cons_of_mem _ hx, hfx⟩

theorem mapE_not_ok_of_error {α β : Type} {f : α → Except Err β} {l : List α} {x : α} {e : Err}
    (hx : x ∈ l) (hfx : f x = Except.error e) : ∀ ys, mapE f l ≠ Except.ok ys := by
  intro ys h
  obtain ⟨y, hy, _⟩ := mapE_ok_mem_src h hx
  rw [hfx] at hy
  cases hy

theorem mapE_error_exists {α β : Type} {f : α → Except Err β} {l : List α} {x : α} {e : Err}
    (hx : x ∈ l) (hfx : f x = Except.error e) : ∃ e', mapE f l = Except.error e' := by
  cases h : mapE f l with
  | error e' => exact ⟨e', rfl⟩
  | ok ys => exact absurd h (mapE_not_ok_of_error hx hfx ys)

/-! ### Membership through `filter_empty` and `sort_by_name` -/

theorem mem_filter_empty {r : ResObject} {l : List (Option ResObject)} :
    r ∈ filter_empty l ↔ some r ∈ l := by
  unfold filter_empty
  rw [List.mem_filterMap]
  constructor
  · rintro ⟨a, ha, hid⟩
    cases hid
    exact ha
  · intro h
    exact ⟨some r, h, rfl⟩

theorem mem_sort_by_name {r : ResObject} {l : List ResObject} :
    r ∈ sort_by_name l ↔ r ∈ l :=
  List.mem_insertionSort byName

theorem sort_by_name_perm (l : List ResObject) : (sort_by_name l).Perm l :=
  List.perm_insertionSort byName l

theorem sort_by_name_sorted (l : List ResObject) : (sort_by_name l).Sorted byName :=
  List.sorted_insertionSort byName l

/-! ### Stability of the sort: filtering to one filename commutes with sorting -/

theorem filter_orderedInsert_key_pos (a : ResObject) (n : String) (h : a.filename = n) :
    ∀ l : List ResObject,
      (List.orderedInsert byName a l).filter (fun r => r.filename == n) =
        a :: l.filter (fun r => r.filename == n) := by
  intro l
  induction l with
  | nil => simp [List.orderedInsert, h]
  | cons b l ih =>
    by_cases hab : byName a b
    · simp [List.orderedInsert, hab, List.filter_cons, h]
    · have hb : b.filename ≠ n := by
        intro heq
        have hle : ¬ a.filename ≤ b.filename := fun hle => hab ((byName_iff a b).mpr hle)
        have hlt : b.filename < a.filename := not_le.mp hle
        rw [heq, h] at hlt
        exact lt_irrefl n hlt
      simp [List.orderedInsert, hab, List.filter_cons, hb, ih]

theorem filter_orderedInsert_key_neg (a : ResObject) (n : String) (h : ¬ a.filename = n) :
    ∀ l : List ResObject,
      (List.orderedInsert byName a l).filter (fun r => r.filename == n) =
        l.filter (fun r => r.filename == n) := by
  intro l
  induction l with
  | nil => simp [List.orderedInsert, h]
  | cons b l ih =>
    by_cases hab : byName a b
    · simp [List.orderedInsert, hab, List.filter_cons, h]
    · simp only [List.orderedInsert, if_neg hab, List.filter_cons]
      rw [ih]

/-- Stability of `sort_by_name`: the records carrying any one filename appear
in the output in exactly their input order (so ties keep their original
relative order, as Python's stable `sorted` guarantees). -/
theorem sort_by_name_filter (n : String) :
    ∀ l : List ResObject,
      (sort_by_name l).filter (fun r => r.filename == n) =
        l.filter (fun r => r.filename == n) := by
  intro l
  induction l with
  | nil => rfl
  | cons a l ih =>
    show (List.orderedInsert byName a (List.insertionSort byName l)).filter _ = _
    by_cases h : a.filename = n
    · rw [filter_orderedInsert_key_pos a n h]
      simp [List.filter_cons, h, ← ih]
      rfl
    · rw [filter_orderedInsert_key_neg a n h]
      simp [List.filter_cons, h, ← ih]
      rfl

/-- Two lists that are sorted by filename and have identical filename fibers
are equal. -/
theorem sorted_fiber_ext :
    ∀ {X Y : List ResObject}, X.Sorted byName → Y.Sorted byName →
      (∀ n, X.filter (fun r => r.filename == n) = Y.filter (fun r => r.filename == n)) →
      X = Y := by
  intro X
  induction X with
  | nil =>
    intro Y _ _ h
    cases Y with
    | nil => rfl
    | cons b Y' =>
      have hb := h b.filename
      simp [List.filter_cons] at hb
  | cons a X' ih =>
    intro Y hX hY h
    obtain ⟨haX, hX'⟩ := List.sorted_cons.mp hX
    cases Y with
    | nil =>
      have ha := h a.filename
      simp [List.filter_cons] at ha
    | cons b Y' =>
      obtain ⟨hbY, hY'⟩ := List.sorted_cons.mp hY
      have hab : a = b := by
        by_cases hsame : a.filename = b.filename
        · have h1 := h a.filename
          simp [List.filter_cons, hsame.symm] at h1
          exact h1.1
        · exfalso
          have h1 := h a.filename
          have hbn : ¬ b.filename = a.filename := fun e => hsame e.symm
          simp [List.filter_cons, hbn] at h1
          have haY' : a ∈ Y'.filter (fun r => r.filename == a.filename) := by
            rw [← h1]
            simp
          have haY : a ∈ Y' := (List.mem_filter.mp haY').1
          have hble : b.filename ≤ a.filename := by
            have := (byName_iff b a).mp (hbY a haY)
            exact this
          have h2 := h b.filename
          simp [List.filter_cons, hsame] at h2
          have hbX' : b ∈ X'.filter (fun r => r.filename == b.filename) := by
            rw [h2]
            simp
          have hbX : b ∈ X' := (List.mem_filter.mp hbX').1
          have hale : a.filename ≤ b.filename := (byName_iff a b).mp (haX b hbX)
          exact hsame (le_antisymm hale hble)
      subst hab
      have htails : ∀ n, X'.filter (fun r => r.filename == n) =
          Y'.filter (fun r => r.filename == n) := by
        intro n
        have hn := h n
        by_cases hc : a.filename = n
        · simp [List.filter_cons, hc] at hn
          exact hn
        · simp [List.filter_cons, hc] at hn
          exact hn
      rw [ih hX' hY' htails]

/-! ### Characterizations of `process_image` and `generate_response` -/

theorem process_image_label_none {image : String} {fc : Option String} {g : GroupName} {fs : FS}
    (h : fs.labels g (pyStem image) = none) :
    process_image image fc g fs = Except.ok none := by
  simp [process_image, h]

theorem process_image_label_empty {image : String} {fc : Option String} {g : GroupName} {fs : FS}
    (h : fs.labels g (pyStem image) = some []) :
    process_image image fc g fs =
      Except.ok (some (build_res_object (pyStem image) (imagePathOf g image) [] [])) := by
  simp [process_image, h]

theorem process_image_ok_some {image : String} {fc : Option String} {g : GroupName} {fs : FS}
    {r : ResObject} (h : process_image image fc g fs = Except.ok (some r)) :
    fs.labels g (pyStem image) ≠ none ∧
      r.filename = pyStem image ∧
      r.image_path = imagePathOf g image ∧
      r.classes = pyListSet (r.polygons.map fun poly => poly.«class») := by
  simp only [process_image] at h
  cases hl : fs.labels g (pyStem image) with
  | none =>
    simp only [hl] at h
    simp at h
  | some content =>
    simp only [hl] at h
    by_cases hlen : content.length = 0
    · rw [if_pos hlen] at h
      simp only [Except.ok.injEq, Option.some.injEq] at h
      subst h
      exact ⟨by simp [hl], rfl, rfl, rfl⟩
    · rw [if_neg hlen] at h
      cases hp : mapE build_polygon content with
      | error e =>
        simp only [bind, Except.bind, hp] at h
        exact Except.noConfusion h
      | ok polys =>
        simp only [bind, Except.bind, hp] at h
        cases fc with
        | none =>
          simp only [pure, Except.pure, Except.ok.injEq, Option.some.injEq] at h
          subst h
          exact ⟨by simp [hl], rfl, rfl, rfl⟩
        | some s =>
          simp only [pure, Except.pure] at h
          by_cases hcond : s ≠ "" ∧ pyStrip s ≠ "" ∧
              ¬ is_image_class_in_filter_classes
                (pyListSet (polys.map fun poly => poly.«class»)) s
          · rw [if_pos hcond] at h
            simp at h
          · rw [if_neg hcond] at h
            simp only [Except.ok.injEq, Option.some.injEq] at h
            subst h
            exact ⟨by simp [hl], rfl, rfl, rfl⟩

theorem prepare_group_data_mem {fc : Option String} {g : GroupName} {images : List String}
    {fs : FS} {res : List ResObject} {r : ResObject}
    (h : prepare_group_data fc g images fs = Except.ok res) (hr : r ∈ res) :
    ∃ image, image ∈ images ∧ process_image image fc g fs = Except.ok (some r) := by
  unfold prepare_group_data at h
  cases hp : mapE (fun image => process_image image fc g fs) images with
  | error e =>
    simp only [bind, Except.bind, hp] at h
    exact Except.noConfusion h
  | ok processed =>
    simp only [bind, Except.bind, hp, pure, Except.pure, Except.ok.injEq] at h
    subst h
    have : some r ∈ processed := mem_filter_empty.mp (mem_sort_by_name.mp hr)
    obtain ⟨image, himg, hok⟩ := mapE_ok_mem_out hp this
    exact ⟨image, himg, hok⟩

theorem generate_response_mem {g : GroupName} {fc : Option String} {fs : FS}
    {res : List ResObject} {r : ResObject}
    (h : generate_response g fc fs = Except.ok res) (hr : r ∈ res) :
    ∃ g' image, image ∈ fs.images g' ∧ g' ≠ GroupName.all ∧
      process_image image fc g' fs = Except.ok (some r) := by
  unfold generate_response at h
  by_cases hg : g = GroupName.all
  · rw [if_pos hg] at h
    unfold prepare_all_data at h
    cases ht : mapE (fun image => process_image image fc GroupName.test fs)
        (fs.images GroupName.test) with
    | error e =>
      simp only [bind, Except.bind, ht] at h
      exact Except.noConfusion h
    | ok t =>
      cases htr : mapE (fun image => process_image image fc GroupName.train fs)
          (fs.images GroupName.train) with
      | error e =>
        simp only [bind, Except.bind, ht, htr] at h
        exact Except.noConfusion h
      | ok tr =>
        cases hv : mapE (fun image => process_image image fc GroupName.valid fs)
            (fs.images GroupName.valid) with
        | error e =>
          simp only [bind, Except.bind, ht, htr, hv] at h
          exact Except.noConfusion h
        | ok v =>
          simp only [bind, Except.bind, ht, htr, hv, pure, Except.pure,
            Except.ok.injEq] at h
          subst h
          have hmem : some r ∈ t ++ tr ++ v := mem_filter_empty.mp (mem_sort_by_name.mp hr)
          rcases List.mem_append.mp hmem with hmem' | hmemv
          · rcases List.mem_append.mp hmem' with hmemt | hmemtr
            · obtain ⟨image, himg, hok⟩ := mapE_ok_mem_out ht hmemt
              exact ⟨GroupName.test, image, himg, by simp, hok⟩
            · obtain ⟨image, himg, hok⟩ := mapE_ok_mem_out htr hmemtr
              exact ⟨GroupName.train, image, himg, by simp, hok⟩
          · obtain ⟨image, himg, hok⟩ := mapE_ok_mem_out hv hmemv
            exact ⟨GroupName.valid, image, himg, by simp, hok⟩
  · rw [if_neg hg] at h
    obtain ⟨image, himg, hok⟩ := prepare_group_data_mem h hr
    exact ⟨g, image, himg, hg, hok⟩

theorem generate_response_mem_of {g : GroupName} {fc : Option String} {fs : FS}
    {res : List ResObject} {r : ResObject} {image : String}
    (hg : g ≠ GroupName.all) (himg : image ∈ fs.images g)
    (hok : process_image image fc g fs = Except.ok (some r))
    (hres : generate_response g fc fs = Except.ok res) : r ∈ res := by
  unfold generate_response at hres
  rw [if_neg hg] at hres
  unfold prepare_group_data at hres
  cases hp : mapE (fun image => process_image image fc g fs) (fs.images g) with
  | error e =>
    simp only [bind, Except.bind, hp] at hres
    exact Except.noConfusion hres
  | ok processed =>
    simp only [bind, Except.bind, hp, pure, Except.pure, Except.ok.injEq] at hres
    subst hres
    obtain ⟨y, hy, hmem⟩ := mapE_ok_mem_src hp himg
    rw [hok] at hy
    cases hy
    exact mem_sort_by_name.mpr (mem_filter_empty.mpr hmem)

/-! ### Further helper lemmas -/

theorem mapE_pyFloat_ok {l : List String} (h : ∀ t ∈ l, isPyFloat t = true) :
    mapE pyFloat l = Except.ok l := by
  induction l with
  | nil => rfl
  | cons a as ih =>
    have ha : pyFloat a = Except.ok a := by
      unfold pyFloat
      rw [if_pos (h a (List.mem_cons_self _ _))]
    have has : mapE pyFloat as = Except.ok as :=
      ih fun t ht => h t (List.mem_cons_of_mem _ ht)
    simp only [mapE, ha, has]

theorem build_polygon_eq {row tok : String} {rest : List String} {n : Int} {c : String}
    (hsplit : pySplit (pyStrip row) = tok :: rest)
    (hint : pyInt tok = some n)
    (hcls : pyIndex CLASSES n = some c)
    (hfl : ∀ t ∈ rest, isPyFloat t = true) :
    build_polygon row = Except.ok ⟨c, chunkPairs rest⟩ := by
  unfold build_polygon
  rw [hsplit]
  simp [get_class_id, hint, get_class_by_id, hcls, mapE_pyFloat_ok hfl,
    bind, Except.bind, pure, Except.pure]

theorem chunkPairs_odd_last :
    ∀ l : List String, l.length % 2 = 1 → ∃ v, (chunkPairs l).getLast? = some [v]
  | [] => by intro h; simp at h
  | [a] => by intro _; exact ⟨a, rfl⟩
  | a :: b :: rest => by
    intro h
    have h' : rest.length % 2 = 1 := by
      simp only [List.length_cons] at h
      omega
    obtain ⟨v, hv⟩ := chunkPairs_odd_last rest h'
    refine ⟨v, ?_⟩
    show ([a, b] :: chunkPairs rest).getLast? = some [v]
    cases hcp : chunkPairs rest with
    | nil =>
      rw [hcp] at hv
      simp at hv
    | cons y ys =>
      rw [hcp] at hv
      simpa using hv

theorem process_image_parsed {image : String} {fc : Option String} {g : GroupName} {fs : FS}
    {content : List String} {polys : List Polygon}
    (hlab : fs.labels g (pyStem image) = some content) (hne : content ≠ [])
    (hpolys : mapE build_polygon content = Except.ok polys) :
    process_image image fc g fs = Except.ok (
      match fc with
      | some s =>
        if s ≠ "" ∧ pyStrip s ≠ "" ∧
            ¬ is_image_class_in_filter_classes
              (pyListSet (polys.map fun poly => poly.«class»)) s then
          none
        else
          some (build_res_object (pyStem image) (imagePathOf g image)
            (pyListSet (polys.map fun poly => poly.«class»)) polys)
      | none =>
        some (build_res_object (pyStem image) (imagePathOf g image)
          (pyListSet (polys.map fun poly => poly.«class»)) polys)) := by
  have hlen : ¬ content.length = 0 := by
    simpa [List.length_eq_zero] using hne
  simp only [process_image, hlab, if_neg hlen, bind, Except.bind, hpolys]
  cases fc with
  | none => rfl
  | some s =>
    dsimp only
    by_cases hcond : s ≠ "" ∧ pyStrip s ≠ "" ∧
        ¬ is_image_class_in_filter_classes
          (pyListSet (polys.map fun poly => poly.«class»)) s
    · rw [if_pos hcond, if_pos hcond]
      rfl
    · rw [if_neg hcond, if_neg hcond]
      rfl

theorem process_image_error_of {image row : String} {fc : Option String} {g : GroupName}
    {fs : FS} {content : List String} {e : Err}
    (hlab : fs.labels g (pyStem image) = some content) (hrow : row ∈ content)
    (herr : build_polygon row = Except.error e) :
    ∃ e', process_image image fc g fs = Except.error e' := by
  have hne : content ≠ [] := List.ne_nil_of_mem hrow
  have hlen : ¬ content.length = 0 := by
    simpa [List.length_eq_zero] using hne
  obtain ⟨e', he'⟩ := mapE_error_exists hrow herr
  refine ⟨e', ?_⟩
  simp only [process_image, hlab, if_neg hlen, bind, Except.bind, he']

theorem generate_response_error_of {g : GroupName} {fc : Option String} {fs : FS}
    {image : String} {e : Err}
    (hg : g ≠ GroupName.all) (himg : image ∈ fs.images g)
    (herr : process_image image fc g fs = Except.error e) :
    ∃ e', generate_response g fc fs = Except.error e' := by
  obtain ⟨e', he'⟩ := @mapE_error_exists String (Option ResObject)
    (fun image => process_image image fc g fs) (fs.images g) image e himg herr
  refine ⟨e', ?_⟩
  simp only [generate_response, if_neg hg, prepare_group_data, bind, Except.bind, he']

theorem generate_response_ok_sort {g : GroupName} {fc : Option String} {fs : FS}
    {res : List ResObject} (h : generate_response g fc fs = Except.ok res) :
    ∃ l, res = sort_by_name l := by
  unfold generate_response at h
  by_cases hg : g = GroupName.all
  · rw [if_pos hg] at h
    unfold prepare_all_data at h
    cases ht : mapE (fun image => process_image image fc GroupName.test fs)
        (fs.images GroupName.test) with
    | error e =>
      simp only [bind, Except.bind, ht] at h
      exact Except.noConfusion h
    | ok t =>
      cases htr : mapE (fun image => process_image image fc GroupName.train fs)
          (fs.images GroupName.train) with
      | error e =>
        simp only [bind, Except.bind, ht, htr] at h
        exact Except.noConfusion h
      | ok tr =>
        cases hv : mapE (fun image => process_image image fc GroupName.valid fs)
            (fs.images GroupName.valid) with
        | error e =>
          simp only [bind, Except.bind, ht, htr, hv] at h
          exact Except.noConfusion h
        | ok v =>
          simp only [bind, Except.bind, ht, htr, hv, pure, Except.pure,
            Except.ok.injEq] at h
          exact ⟨filter_empty (t ++ tr ++ v), h.symm⟩
  · rw [if_neg hg] at h
    unfold prepare_group_data at h
    cases hp : mapE (fun image => process_image image fc g fs) (fs.images g) with
    | error e =>
      simp only [bind, Except.bind, hp] at h
      exact Except.noConfusion h
    | ok processed =>
      simp only [bind, Except.bind, hp, pure, Except.pure, Except.ok.injEq] at h
      exact ⟨filter_empty processed, h.symm⟩

theorem is_image_class_iff (image_classes : List String) (s : String) :
    is_image_class_in_filter_classes image_classes s = true ↔
      (image_classes.toFinset ∩ (pySplitComma s).toFinset).Nonempty := by
  unfold is_image_class_in_filter_classes
  rw [List.any_eq_true]
  constructor
  · rintro ⟨c, hc, hmem⟩
    exact ⟨c, Finset.mem_inter.mpr
      ⟨List.mem_toFinset.mpr hc, List.mem_toFinset.mpr (by simpa using hmem)⟩⟩
  · rintro ⟨c, hc⟩
    obtain ⟨h1, h2⟩ := Finset.mem_inter.mp hc
    exact ⟨c, List.mem_toFinset.mp h1, by simpa using List.mem_toFinset.mp h2⟩

theorem pyIndex_ge_length {l : List String} {n : Int} (h : (l.length : Int) ≤ n) :
    pyIndex l n = none := by
  have h0 : 0 ≤ n := le_trans (Int.ofNat_nonneg _) h
  have hge : l.length ≤ n.toNat := by
    omega
  simp [pyIndex, if_pos h0, List.getElem?_eq_none hge]

theorem pyIndex_lt_neg_length {l : List String} {n : Int} (h : (l.length : Int) + n < 0) :
    pyIndex l n = none := by
  have h0 : ¬ 0 ≤ n := by omega
  simp [pyIndex, if_neg h0, if_neg (not_le.mpr h)]

theorem pyIndex_neg_in_range {l : List String} {n : Int}
    (h1 : -(l.length : Int) ≤ n) (h2 : n ≤ -1) :
    pyIndex l n = l[((l.length : Int) + n).toNat]? := by
  have h0 : ¬ 0 ≤ n := by omega
  have hge : 0 ≤ (l.length : Int) + n := by omega
  simp [pyIndex, if_neg h0, if_pos hge]

/-! ### Injectivity of the public image path (names without path separators) -/

theorem string_ext {s t : String} (h : s.data = t.data) : s = t := by
  cases s
  cases t
  exact congrArg String.mk h

theorem takeWhile_all_append {p : Char → Bool} :
    ∀ (A B : List Char), (∀ a ∈ A, p a = true) →
      (∀ b, B.head? = some b → p b = false) → (A ++ B).takeWhile p = A := by
  intro A
  induction A with
  | nil =>
    intro B _ hB
    cases B with
    | nil => rfl
    | cons b B' =>
      simp only [List.nil_append, List.takeWhile]
      rw [hB b rfl]
  | cons a A' ih =>
    intro B hA hB
    simp only [List.cons_append, List.takeWhile]
    rw [hA a (List.mem_cons_self _ _)]
    show a :: List.takeWhile p (A' ++ B) = a :: A'
    rw [ih B (fun x hx => hA x (List.mem_cons_of_mem _ hx)) hB]

/-- The constant path segment put before the image name by `process_image`. -/
def groupPre (g : GroupName) : String :=
  get_prefix g ++ "/" ++ IMAGES_PREFIX ++ "/"

theorem imagePathOf_eq (g : GroupName) (i : String) : imagePathOf g i = groupPre g ++ i :=
  rfl

theorem groupPre_last (g : GroupName) : (groupPre g).data.reverse.head? = some '/' := by
  cases g <;> decide

theorem append_eq_of_no_slash {P Q n m : List Char}
    (hd : P ++ n = Q ++ m)
    (hn : ∀ c ∈ n, c ≠ '/') (hm : ∀ c ∈ m, c ≠ '/')
    (hP : P.reverse.head? = some '/') (hQ : Q.reverse.head? = some '/') :
    P = Q ∧ n = m := by
  have hrev : n.reverse ++ P.reverse = m.reverse ++ Q.reverse := by
    have := congrArg List.reverse hd
    simpa [List.reverse_append] using this
  have hn' : ∀ c ∈ n.reverse, (c != '/') = true := by
    intro c hc
    simpa using hn c (List.mem_reverse.mp hc)
  have hm' : ∀ c ∈ m.reverse, (c != '/') = true := by
    intro c hc
    simpa using hm c (List.mem_reverse.mp hc)
  have hPhead : ∀ b, P.reverse.head? = some b → (b != '/') = false := by
    intro b hb
    rw [hP] at hb
    cases hb
    simp
  have hQhead : ∀ b, Q.reverse.head? = some b → (b != '/') = false := by
    intro b hb
    rw [hQ] at hb
    cases hb
    simp
  have h1 : (n.reverse ++ P.reverse).takeWhile (fun c => c != '/') = n.reverse :=
    takeWhile_all_append _ _ hn' hPhead
  have h2 : (m.reverse ++ Q.reverse).takeWhile (fun c => c != '/') = m.reverse :=
    takeWhile_all_append _ _ hm' hQhead
  have hnm : n = m := by
    have : n.reverse = m.reverse := by rw [← h1, ← h2, hrev]
    simpa using congrArg List.reverse this
  subst hnm
  exact ⟨List.append_cancel_right hd, rfl⟩

theorem groupPre_inj {g g' : GroupName} (h : groupPre g = groupPre g') : g = g' := by
  cases g <;> cases g' <;> first | rfl | exact absurd h (by decide)

theorem imagePathOf_inj {g g' : GroupName} {i i' : String}
    (hi : ∀ c ∈ i.data, c ≠ '/') (hi' : ∀ c ∈ i'.data, c ≠ '/')
    (h : imagePathOf g i = imagePathOf g' i') : g = g' ∧ i = i' := by
  have hd : (groupPre g).data ++ i.data = (groupPre g').data ++ i'.data := by
    have hdata := congrArg String.data h
    rw [imagePathOf_eq, imagePathOf_eq, String.data_append, String.data_append] at hdata
    exact hdata
  obtain ⟨hpre, hname⟩ := append_eq_of_no_slash hd hi hi'
    (groupPre_last g) (groupPre_last g')
  exact ⟨groupPre_inj (string_ext hpre), string_ext hname⟩

/-! ### Claim theorems -/

/-- Claim C1 counterexample: the label line `"2 0.1 0.2 0.3"` has an odd
count of coordinate tokens, yet parsing does not fail: `build_polygon`
returns a polygon whose last vertex has a single coordinate, and the image's
group processing succeeds and returns that partial record. -/
theorem c1_counterexample :
    build_polygon "2 0.1 0.2 0.3" =
      Except.ok ⟨"forearm fracture", [["0.1", "0.2"], ["0.3"]]⟩ ∧
    generate_response GroupName.train none fsOdd =
      Except.ok [build_res_object "img" "/images/train/images/img.jpg"
        ["forearm fracture"] [⟨"forearm fracture", [["0.1", "0.2"], ["0.3"]]⟩]] := by
  constructor
  · decide
  · decide

/-- Claim C1 (amended): an odd count of coordinate tokens after the class
token is not a parse error.  Whenever the class token resolves and every
coordinate token is a valid float literal, parsing the line succeeds and
yields the polygon whose vertices are the coordinate tokens chunked in
pairs, the last vertex holding only the single leftover coordinate. -/
theorem c1_odd_coordinates_not_fatal (row tok : String) (rest : List String) (n : Int)
    (c : String)
    (hsplit : pySplit (pyStrip row) = tok :: rest)
    (hint : pyInt tok = some n)
    (hcls : pyIndex CLASSES n = some c)
    (hfl : ∀ t ∈ rest, isPyFloat t = true)
    (hodd : rest.length % 2 = 1) :
    build_polygon row = Except.ok ⟨c, chunkPairs rest⟩ ∧
      ∃ v, (chunkPairs rest).getLast? = some [v] :=
  ⟨build_polygon_eq hsplit hint hcls hfl, chunkPairs_odd_last rest hodd⟩

/-- Witness for C1's amended theorem at the concrete line `"2 0.1 0.2 0.3"`. -/
theorem c1_witness :
    pySplit (pyStrip "2 0.1 0.2 0.3") = "2" :: ["0.1", "0.2", "0.3"] ∧
    pyInt "2" = some 2 ∧
    pyIndex CLASSES 2 = some "forearm fracture" ∧
    (∀ t ∈ (["0.1", "0.2", "0.3"] : List String), isPyFloat t = true) ∧
    (["0.1", "0.2", "0.3"] : List String).length % 2 = 1 ∧
    (build_polygon "2 0.1 0.2 0.3" =
        Except.ok ⟨"forearm fracture", chunkPairs ["0.1", "0.2", "0.3"]⟩ ∧
      ∃ v, (chunkPairs ["0.1", "0.2", "0.3"]).getLast? = some [v]) :=
  ⟨by decide, by decide, by decide, by decide, by decide,
    c1_odd_coordinates_not_fatal "2 0.1 0.2 0.3" "2" ["0.1", "0.2", "0.3"] 2
      "forearm fracture" (by decide) (by decide) (by decide) (by decide) (by decide)⟩

/-- Claim C2 counterexample: an image whose label file is empty is included
in the collection even under the non-blank filter `"elbow positive"`, whose
requested set cannot intersect the record's empty class set — the claim's
exclusion clause fails on the code. -/
theorem c2_counterexample :
    pyStrip "elbow positive" ≠ "" ∧
    generate_response GroupName.train (some "elbow positive") fsEmpty =
      Except.ok [build_res_object "a" "/images/train/images/a.jpg" [] []] := by
  constructor
  · decide
  · decide

/-- Claim C2 (amended): an image whose label file exists with zero lines
yields the record with empty `classes` and `polygons`, and that record is
included in the group's ResultCollection for every filter string, blank or
not: the empty-label branch of `process_image` returns before the filter is
consulted. -/
theorem c2_empty_label_retained (img : String) (fc : Option String) (g : GroupName) (fs : FS)
    (hg : g ≠ GroupName.all) (himg : img ∈ fs.images g)
    (hlab : fs.labels g (pyStem img) = some []) :
    process_image img fc g fs =
      Except.ok (some (build_res_object (pyStem img) (imagePathOf g img) [] [])) ∧
    ∀ res, generate_response g fc fs = Except.ok res →
      build_res_object (pyStem img) (imagePathOf g img) [] [] ∈ res := by
  refine ⟨process_image_label_empty hlab, ?_⟩
  intro res hres
  exact generate_response_mem_of hg himg (process_image_label_empty hlab) hres

/-- Witness for C2's amended theorem: the empty-label image `a.jpg` under the
non-blank filter `"elbow positive"`. -/
theorem c2_witness :
    GroupName.train ≠ GroupName.all ∧
    "a.jpg" ∈ fsEmpty.images GroupName.train ∧
    fsEmpty.labels GroupName.train (pyStem "a.jpg") = some [] ∧
    (process_image "a.jpg" (some "elbow positive") GroupName.train fsEmpty =
        Except.ok (some (build_res_object (pyStem "a.jpg")
          (imagePathOf GroupName.train "a.jpg") [] [])) ∧
      ∀ res, generate_response GroupName.train (some "elbow positive") fsEmpty =
          Except.ok res →
        build_res_object (pyStem "a.jpg") (imagePathOf GroupName.train "a.jpg") [] [] ∈ res) :=
  ⟨by decide, by decide, by decide,
    c2_empty_label_retained "a.jpg" (some "elbow positive") GroupName.train fsEmpty
      (by decide) (by decide) (by decide)⟩

/-- Claim C8: a label line whose class token parses to an integer outside
the indexable range of the 7-entry catalog (at least 7, or below -7) makes
`build_polygon` fail, and the whole group's `generate_response` fails with a
propagated error — the line is never silently skipped, no `ok` result
exists.  (Python raises `IndexError` here; the spec's `AnnotationFormatError`
is its abstract name for this failure.) -/
theorem c8_out_of_range_class_fatal (img row tok : String) (rest : List String) (n : Int)
    (g : GroupName) (fc : Option String) (fs : FS) (content : List String)
    (hg : g ≠ GroupName.all) (himg : img ∈ fs.images g)
    (hlab : fs.labels g (pyStem img) = some content) (hrow : row ∈ content)
    (hsplit : pySplit (pyStrip row) = tok :: rest)
    (hint : pyInt tok = some n)
    (hout : 7 ≤ n ∨ n < -7) :
    build_polygon row = Except.error Err.indexError ∧
    (∃ e, generate_response g fc fs = Except.error e) ∧
    ∀ res, generate_response g fc fs ≠ Except.ok res := by
  have hlen : (CLASSES.length : Int) = 7 := by decide
  have hidx : pyIndex CLASSES n = none := by
    rcases hout with h7 | h7
    · exact pyIndex_ge_length (by rw [hlen]; exact h7)
    · exact pyIndex_lt_neg_length (by rw [hlen]; omega)
  have hbp : build_polygon row = Except.error Err.indexError := by
    unfold build_polygon
    rw [hsplit]
    simp [get_class_id, hint, get_class_by_id, hidx, bind, Except.bind]
  obtain ⟨e, he⟩ := process_image_error_of hlab hrow hbp
  obtain ⟨e', he'⟩ := generate_response_error_of hg himg he
  refine ⟨hbp, ⟨e', he'⟩, ?_⟩
  intro res hres
  rw [he'] at hres
  exact Except.noConfusion hres

/-- Witness for C8 at the concrete line `"999 0.1 0.2"`. -/
theorem c8_witness :
    GroupName.train ≠ GroupName.all ∧
    "z.jpg" ∈ fsBad.images GroupName.train ∧
    fsBad.labels GroupName.train (pyStem "z.jpg") = some ["999 0.1 0.2"] ∧
    "999 0.1 0.2" ∈ ["999 0.1 0.2"] ∧
    pySplit (pyStrip "999 0.1 0.2") = "999" :: ["0.1", "0.2"] ∧
    pyInt "999" = some 999 ∧
    ((7 : Int) ≤ 999 ∨ (999 : Int) < -7) ∧
    (build_polygon "999 0.1 0.2" = Except.error Err.indexError ∧
      (∃ e, generate_response GroupName.train none fsBad = Except.error e) ∧
      ∀ res, generate_response GroupName.train none fsBad ≠ Except.ok res) :=
  ⟨by decide, by decide, by decide, by decide, by decide, by decide, by decide,
    c8_out_of_range_class_fatal "z.jpg" "999 0.1 0.2" "999" ["0.1", "0.2"] 999
      GroupName.train none fsBad ["999 0.1 0.2"]
      (by decide) (by decide) (by decide) (by decide) (by decide) (by decide) (by decide)⟩

/-- Claim C9 counterexample: the claim asserts parsing never fails for a
first token in `-7..-1`, but for the line `"-1 abc"` the class token parses
to -1 and the catalog lookup succeeds, and then `float("abc")` raises
`ValueError` — parsing does fail. -/
theorem c9_counterexample :
    pyInt "-1" = some (-1) ∧
    get_class_by_id (-1) = Except.ok "wrist positive" ∧
    build_polygon "-1 abc" = Except.error Err.valueError := by
  refine ⟨by decide, by decide, ?_⟩
  decide

/-- Claim C9 (amended): a class token that parses to a negative integer `n`
with `-7 ≤ n ≤ -1` is not rejected: catalog lookup uses Python negative
indexing, `get_class_by_id` returns the catalog entry at position `7 + n`,
and when the coordinate tokens are valid float literals `build_polygon`
succeeds with that class. -/
theorem c9_negative_index_allowed (row tok : String) (rest : List String) (n : Int)
    (hsplit : pySplit (pyStrip row) = tok :: rest)
    (hint : pyInt tok = some n)
    (hfl : ∀ t ∈ rest, isPyFloat t = true)
    (h1 : -7 ≤ n) (h2 : n ≤ -1) :
    ∃ c, CLASSES[((7 : Int) + n).toNat]? = some c ∧
      get_class_by_id n = Except.ok c ∧
      build_polygon row = Except.ok ⟨c, chunkPairs rest⟩ := by
  have hlen : (CLASSES.length : Int) = 7 := by decide
  have hpi : pyIndex CLASSES n = CLASSES[(((CLASSES.length : Int)) + n).toNat]? :=
    pyIndex_neg_in_range (by rw [hlen]; exact h1) h2
  rw [hlen] at hpi
  have hbound : ((7 : Int) + n).toNat < CLASSES.length := by
    have h7 : CLASSES.length = 7 := by decide
    rw [h7]
    omega
  obtain ⟨c, hc⟩ : ∃ c, CLASSES[((7 : Int) + n).toNat]? = some c := by
    rw [List.getElem?_eq_getElem hbound]
    exact ⟨_, rfl⟩
  have hcid : get_class_by_id n = Except.ok c := by
    unfold get_class_by_id
    rw [hpi, hc]
  exact ⟨c, hc, hcid, build_polygon_eq hsplit hint (hpi.trans hc) hfl⟩

/-- Witness for C9 at the concrete line `"-1 0.1 0.2"`; the decided extra
conjunct checks that the class resolved for index -1 is `"wrist positive"`,
the last catalog entry. -/
theorem c9_witness :
    pySplit (pyStrip "-1 0.1 0.2") = "-1" :: ["0.1", "0.2"] ∧
    pyInt "-1" = some (-1) ∧
    (∀ t ∈ (["0.1", "0.2"] : List String), isPyFloat t = true) ∧
    ((-7 : Int) ≤ -1 ∧ (-1 : Int) ≤ -1) ∧
    build_polygon "-1 0.1 0.2" =
      Except.ok ⟨"wrist positive", [["0.1", "0.2"]]⟩ ∧
    ∃ c, CLASSES[((7 : Int) + -1).toNat]? = some c ∧
      get_class_by_id (-1) = Except.ok c ∧
      build_polygon "-1 0.1 0.2" = Except.ok ⟨c, chunkPairs ["0.1", "0.2"]⟩ :=
  ⟨by decide, by decide, by decide, ⟨by decide, by decide⟩, by decide,
    c9_negative_index_allowed "-1 0.1 0.2" "-1" ["0.1", "0.2"] (-1)
      (by decide) (by decide) (by decide) (by decide) (by decide)⟩

/-- Claim C10: a label file containing a line of only whitespace (such as a
lone newline) is not an empty label file: parsing the line fails with
`IndexError` when `int(line[0])` reads token 0 from the empty token list, so
`process_image` propagates an error and never yields any record — in
particular no record with empty classes and polygons. -/
theorem c10_whitespace_line_fails (img : String) (fc : Option String) (g : GroupName)
    (fs : FS) (content : List String) (line : String)
    (hlab : fs.labels g (pyStem img) = some content)
    (hline : line ∈ content)
    (hws : pyStrip line = "") :
    build_polygon line = Except.error Err.indexError ∧
    (∃ e, process_image img fc g fs = Except.error e) ∧
    ∀ rec, process_image img fc g fs ≠ Except.ok rec := by
  have hsplit : pySplit (pyStrip line) = [] := by
    rw [hws]
    rfl
  have hbp : build_polygon line = Except.error Err.indexError := by
    unfold build_polygon
    rw [hsplit]
    rfl
  obtain ⟨e, he⟩ := process_image_error_of hlab hline hbp
  refine ⟨hbp, ⟨e, he⟩, ?_⟩
  intro rec hrec
  rw [he] at hrec
  exact Except.noConfusion hrec

/-- Witness for C10 at the concrete label file `["\n"]`. -/
theorem c10_witness :
    fsWS.labels GroupName.train (pyStem "w.jpg") = some ["\n"] ∧
    "\n" ∈ ["\n"] ∧
    pyStrip "\n" = "" ∧
    (build_polygon "\n" = Except.error Err.indexError ∧
      (∃ e, process_image "w.jpg" none GroupName.train fsWS = Except.error e) ∧
      ∀ rec, process_image "w.jpg" none GroupName.train fsWS ≠ Except.ok rec) :=
  ⟨by decide, by decide, by decide,
    c10_whitespace_line_fails "w.jpg" none GroupName.train fsWS ["\n"] "\n"
      (by decide) (by decide) (by decide)⟩

/-- Claim C3: for a parsed record (at least one polygon), a non-blank filter
string includes the record exactly when its class set intersects the set
obtained by splitting the filter on commas — and then includes it in full,
with all its polygons; a blank or absent filter includes every parsed record
unconditionally; an included record is a member of the group's
ResultCollection. -/
theorem c3_filter_correct (img s : String) (g : GroupName) (fs : FS)
    (content : List String) (polys : List Polygon)
    (hlab : fs.labels g (pyStem img) = some content)
    (hne : content ≠ [])
    (hpolys : mapE build_polygon content = Except.ok polys) :
    (pyStrip s ≠ "" →
      ((process_image img (some s) g fs =
          Except.ok (some (build_res_object (pyStem img) (imagePathOf g img)
            (pyListSet (polys.map fun p => p.«class»)) polys)) ↔
        ((pyListSet (polys.map fun p => p.«class»)).toFinset ∩
          (pySplitComma s).toFinset).Nonempty) ∧
       (¬ ((pyListSet (polys.map fun p => p.«class»)).toFinset ∩
          (pySplitComma s).toFinset).Nonempty →
        process_image img (some s) g fs = Except.ok none))) ∧
    (pyStrip s = "" →
      process_image img (some s) g fs =
        Except.ok (some (build_res_object (pyStem img) (imagePathOf g img)
          (pyListSet (polys.map fun p => p.«class»)) polys))) ∧
    (process_image img none g fs =
      Except.ok (some (build_res_object (pyStem img) (imagePathOf g img)
        (pyListSet (polys.map fun p => p.«class»)) polys))) ∧
    (∀ fc res r, g ≠ GroupName.all → img ∈ fs.images g →
      process_image img fc g fs = Except.ok (some r) →
      generate_response g fc fs = Except.ok res → r ∈ res) := by
  have hchar := @process_image_parsed img (some s) g fs content polys hlab hne hpolys
  have hcharN := @process_image_parsed img none g fs content polys hlab hne hpolys
  dsimp only at hchar hcharN
  refine ⟨?_, ?_, hcharN, ?_⟩
  · intro hblank
    have hs0 : s ≠ "" := by
      intro hs
      rw [hs] at hblank
      exact hblank (by decide)
    by_cases hint : is_image_class_in_filter_classes
        (pyListSet (polys.map fun p => p.«class»)) s = true
    · have hcond : ¬ (s ≠ "" ∧ pyStrip s ≠ "" ∧
          ¬ is_image_class_in_filter_classes
            (pyListSet (polys.map fun p => p.«class»)) s = true) := by
        intro hc
        exact hc.2.2 hint
      rw [if_neg hcond] at hchar
      constructor
      · constructor
        · intro _
          exact (is_image_class_iff _ _).mp hint
        · intro _
          exact hchar
      · intro hn
        exact absurd ((is_image_class_iff _ _).mp hint) hn
    · have hcond : s ≠ "" ∧ pyStrip s ≠ "" ∧
          ¬ is_image_class_in_filter_classes
            (pyListSet (polys.map fun p => p.«class»)) s = true :=
        ⟨hs0, hblank, hint⟩
      rw [if_pos hcond] at hchar
      constructor
      · constructor
        · intro hmem
          rw [hmem] at hchar
          exact absurd (Except.ok.inj hchar) (Option.some_ne_none _)
        · intro hnon
          exact absurd ((is_image_class_iff _ _).mpr hnon) hint
      · intro _
        exact hchar
  · intro hblank
    have hcond : ¬ (s ≠ "" ∧ pyStrip s ≠ "" ∧
        ¬ is_image_class_in_filter_classes
          (pyListSet (polys.map fun p => p.«class»)) s = true) := by
      intro hc
      exact hc.2.1 hblank
    rw [if_neg hcond] at hchar
    exact hchar
  · intro fc res r hg himg hok hres
    exact generate_response_mem_of hg himg hok hres

/-- Witness for C3: image `a.jpg` of `fsFull` (class `"forearm fracture"`)
under the non-blank filter `"forearm fracture,xyz"`. -/
theorem c3_witness :
    fsFull.labels GroupName.train (pyStem "a.jpg") = some ["2 0.1 0.2 0.3 0.4"] ∧
    (["2 0.1 0.2 0.3 0.4"] : List String) ≠ [] ∧
    mapE build_polygon ["2 0.1 0.2 0.3 0.4"] =
      Except.ok [⟨"forearm fracture", [["0.1", "0.2"], ["0.3", "0.4"]]⟩] ∧
    ((pyStrip "forearm fracture,xyz" ≠ "" →
      ((process_image "a.jpg" (some "forearm fracture,xyz") GroupName.train fsFull =
          Except.ok (some (build_res_object (pyStem "a.jpg")
            (imagePathOf GroupName.train "a.jpg")
            (pyListSet
              ([⟨"forearm fracture", [["0.1", "0.2"], ["0.3", "0.4"]]⟩].map
                fun p : Polygon => p.«class»))
            [⟨"forearm fracture", [["0.1", "0.2"], ["0.3", "0.4"]]⟩])) ↔
        ((pyListSet
            ([⟨"forearm fracture", [["0.1", "0.2"], ["0.3", "0.4"]]⟩].map
              fun p : Polygon => p.«class»)).toFinset ∩
          (pySplitComma "forearm fracture,xyz").toFinset).Nonempty) ∧
       (¬ ((pyListSet
            ([⟨"forearm fracture", [["0.1", "0.2"], ["0.3", "0.4"]]⟩].map
              fun p : Polygon => p.«class»)).toFinset ∩
          (pySplitComma "forearm fracture,xyz").toFinset).Nonempty →
        process_image "a.jpg" (some "forearm fracture,xyz") GroupName.train fsFull =
          Except.ok none))) ∧
    (pyStrip "forearm fracture,xyz" = "" →
      process_image "a.jpg" (some "forearm fracture,xyz") GroupName.train fsFull =
        Except.ok (some (build_res_object (pyStem "a.jpg")
          (imagePathOf GroupName.train "a.jpg")
          (pyListSet
            ([⟨"forearm fracture", [["0.1", "0.2"], ["0.3", "0.4"]]⟩].map
              fun p : Polygon => p.«class»))
          [⟨"forearm fracture", [["0.1", "0.2"], ["0.3", "0.4"]]⟩]))) ∧
    (process_image "a.jpg" none GroupName.train fsFull =
      Except.ok (some (build_res_object (pyStem "a.jpg")
        (imagePathOf GroupName.train "a.jpg")
        (pyListSet
          ([⟨"forearm fracture", [["0.1", "0.2"], ["0.3", "0.4"]]⟩].map
            fun p : Polygon => p.«class»))
        [⟨"forearm fracture", [["0.1", "0.2"], ["0.3", "0.4"]]⟩]))) ∧
    (∀ fc res r, GroupName.train ≠ GroupName.all → "a.jpg" ∈ fsFull.images GroupName.train →
      process_image "a.jpg" fc GroupName.train fsFull = Except.ok (some r) →
      generate_response GroupName.train fc fsFull = Except.ok res → r ∈ res)) :=
  ⟨by decide, by decide, by decide,
    c3_filter_correct "a.jpg" "forearm fracture,xyz" GroupName.train fsFull
      ["2 0.1 0.2 0.3 0.4"] [⟨"forearm fracture", [["0.1", "0.2"], ["0.3", "0.4"]]⟩]
      (by decide) (by decide) (by decide)⟩

/-- Claim C6: every record in every collection returned by
`generate_response` has `classes` equal to the set of distinct class values
of its `polygons` — same set of elements, no duplicates, and both empty when
`polygons` is empty. -/
theorem c6_classes_match_polygons (g : GroupName) (fc : Option String) (fs : FS)
    (res : List ResObject) (h : generate_response g fc fs = Except.ok res) :
    ∀ r ∈ res,
      r.classes.toFinset = (r.polygons.map fun p => p.«class»).toFinset ∧
      r.classes.Nodup ∧
      (r.polygons = [] → r.classes = []) := by
  intro r hr
  obtain ⟨g', image, himg, hg', hok⟩ := generate_response_mem h hr
  obtain ⟨-, -, -, hcls⟩ := process_image_ok_some hok
  refine ⟨?_, ?_, ?_⟩
  · rw [hcls]
    ext a
    simp [pyListSet, List.mem_toFinset, List.mem_dedup]
  · rw [hcls]
    exact List.nodup_dedup _
  · intro hp
    rw [hcls, hp]
    rfl

/-- Witness for C6 on the two-image filesystem `fsFull`. -/
theorem c6_witness :
    generate_response GroupName.train none fsFull =
      Except.ok
        [build_res_object "a" "/images/train/images/a.jpg" ["forearm fracture"]
          [⟨"forearm fracture", [["0.1", "0.2"], ["0.3", "0.4"]]⟩],
         build_res_object "b" "/images/train/images/b.jpg"
          ["elbow positive", "wrist positive"]
          [⟨"elbow positive", [["0.5", "0.5"]]⟩, ⟨"wrist positive", [["0.7", "0.8"]]⟩]] ∧
    ∀ r ∈ [build_res_object "a" "/images/train/images/a.jpg" ["forearm fracture"]
          [⟨"forearm fracture", [["0.1", "0.2"], ["0.3", "0.4"]]⟩],
         build_res_object "b" "/images/train/images/b.jpg"
          ["elbow positive", "wrist positive"]
          [⟨"elbow positive", [["0.5", "0.5"]]⟩, ⟨"wrist positive", [["0.7", "0.8"]]⟩]],
      r.classes.toFinset = (r.polygons.map fun p => p.«class»).toFinset ∧
      r.classes.Nodup ∧
      (r.polygons = [] → r.classes = []) :=
  ⟨by decide,
    c6_classes_match_polygons GroupName.train none fsFull _ (by decide)⟩

/-- Claim C7: every collection returned by `generate_response` is sorted
ascending by filename (byName is the code-point lexicographic order on the
filename strings, `byName_iff`), and the sort the pipeline uses is stable:
the records carrying any single filename appear in the output of
`sort_by_name` in exactly their input order.  (Determinism over a fixed
filesystem value is definitional: `generate_response` is a pure function of
`(group, filter, fs)`.) -/
theorem c7_sorted_and_stable (g : GroupName) (fc : Option String) (fs : FS)
    (res : List ResObject) (h : generate_response g fc fs = Except.ok res) :
    res.Sorted byName ∧
    res.Pairwise (fun a b => a.filename ≤ b.filename) ∧
    ∀ (l : List ResObject) (n : String),
      (sort_by_name l).filter (fun r => r.filename == n) =
        l.filter (fun r => r.filename == n) := by
  obtain ⟨l, rfl⟩ := generate_response_ok_sort h
  refine ⟨sort_by_name_sorted l, ?_, fun l' n => sort_by_name_filter n l'⟩
  exact (sort_by_name_sorted l).imp fun hab => (byName_iff _ _).mp hab

/-- Witness for C7 on `fsFull`: the scan order is b before a and the output
is sorted a before b. -/
theorem c7_witness :
    generate_response GroupName.train none fsFull =
      Except.ok
        [build_res_object "a" "/images/train/images/a.jpg" ["forearm fracture"]
          [⟨"forearm fracture", [["0.1", "0.2"], ["0.3", "0.4"]]⟩],
         build_res_object "b" "/images/train/images/b.jpg"
          ["elbow positive", "wrist positive"]
          [⟨"elbow positive", [["0.5", "0.5"]]⟩, ⟨"wrist positive", [["0.7", "0.8"]]⟩]] ∧
    ([build_res_object "a" "/images/train/images/a.jpg" ["forearm fracture"]
          [⟨"forearm fracture", [["0.1", "0.2"], ["0.3", "0.4"]]⟩],
      build_res_object "b" "/images/train/images/b.jpg"
          ["elbow positive", "wrist positive"]
          [⟨"elbow positive", [["0.5", "0.5"]]⟩,
           ⟨"wrist positive", [["0.7", "0.8"]]⟩]].Sorted byName ∧
      List.Pairwise (fun a b => a.filename ≤ b.filename)
        [build_res_object "a" "/images/train/images/a.jpg" ["forearm fracture"]
          [⟨"forearm fracture", [["0.1", "0.2"], ["0.3", "0.4"]]⟩],
         build_res_object "b" "/images/train/images/b.jpg"
          ["elbow positive", "wrist positive"]
          [⟨"elbow positive", [["0.5", "0.5"]]⟩,
           ⟨"wrist positive", [["0.7", "0.8"]]⟩]] ∧
      ∀ (l : List ResObject) (n : String),
        (sort_by_name l).filter (fun r => r.filename == n) =
          l.filter (fun r => r.filename == n)) :=
  ⟨by decide,
    c7_sorted_and_stable GroupName.train none fsFull
      [build_res_object "a" "/images/train/images/a.jpg" ["forearm fracture"]
          [⟨"forearm fracture", [["0.1", "0.2"], ["0.3", "0.4"]]⟩],
       build_res_object "b" "/images/train/images/b.jpg"
          ["elbow positive", "wrist positive"]
          [⟨"elbow positive", [["0.5", "0.5"]]⟩,
           ⟨"wrist positive", [["0.7", "0.8"]]⟩]] (by decide)⟩

/-- Claim C5: an image file with no matching label file produces no record
(`process_image` returns `none` inside `ok` for every filter), and no record
of any ResultCollection produced by `generate_response` — for any group and
any filter — carries that image's public path.  The two slash hypotheses
state that directory entries do not contain the path separator, which
`os.scandir` guarantees. -/
theorem c5_no_label_absent (img : String) (g : GroupName) (fs : FS)
    (hlab : fs.labels g (pyStem img) = none)
    (hslash : ∀ c ∈ img.data, c ≠ '/')
    (hfs : ∀ g', ∀ i ∈ fs.images g', ∀ c ∈ i.data, c ≠ '/') :
    (∀ fc, process_image img fc g fs = Except.ok none) ∧
    (∀ g' fc res r, generate_response g' fc fs = Except.ok res → r ∈ res →
      r.image_path ≠ imagePathOf g img) := by
  constructor
  · intro fc
    exact process_image_label_none hlab
  · intro g' fc res r hres hr hpath
    obtain ⟨g'', image, himg, hg'', hok⟩ := generate_response_mem hres hr
    obtain ⟨hlabne, -, hpath', -⟩ := process_image_ok_some hok
    rw [hpath'] at hpath
    obtain ⟨hgg, hii⟩ := imagePathOf_inj (hfs g'' image himg) hslash hpath
    rw [hgg, hii] at hlabne
    exact hlabne hlab

/-- Witness for C5: the label-less image `x.jpg` of `fsNoLabel`. -/
theorem c5_witness :
    fsNoLabel.labels GroupName.train (pyStem "x.jpg") = none ∧
    (∀ c ∈ "x.jpg".data, c ≠ '/') ∧
    (∀ g', ∀ i ∈ fsNoLabel.images g', ∀ c ∈ i.data, c ≠ '/') ∧
    ((∀ fc, process_image "x.jpg" fc GroupName.train fsNoLabel = Except.ok none) ∧
      (∀ g' fc res r, generate_response g' fc fsNoLabel = Except.ok res → r ∈ res →
        r.image_path ≠ imagePathOf GroupName.train "x.jpg")) :=
  ⟨by decide, by decide, by decide,
    c5_no_label_absent "x.jpg" GroupName.train fsNoLabel
      (by decide) (by decide) (by decide)⟩

/-! ### Claim C4 machinery -/

theorem filter_empty_append (a b : List (Option ResObject)) :
    filter_empty (a ++ b) = filter_empty a ++ filter_empty b := by
  simp [filter_empty, List.filterMap_append]

theorem mem_processed_stem {fc : Option String} {g : GroupName} {fs : FS}
    {imgs : List String} {p : List (Option ResObject)} {r : ResObject}
    (hp : mapE (fun image => process_image image fc g fs) imgs = Except.ok p)
    (hr : r ∈ filter_empty p) : ∃ i ∈ imgs, r.filename = pyStem i := by
  obtain ⟨i, hi, hok⟩ := mapE_ok_mem_out hp (mem_filter_empty.mp hr)
  obtain ⟨-, hfn, -, -⟩ := process_image_ok_some hok
  exact ⟨i, hi, hfn⟩

/-- Claim C4: when the image filename stems are disjoint across the three
concrete groups, `generate_response(all, None)` returns exactly the
filename-sorted union of the three per-group responses; being a sort of
their concatenation, it is a permutation of it — the same multiset of
records with no duplicates and no omissions. -/
theorem c4_all_sorted_union (fs : FS) (rtest rtrain rvalid : List ResObject)
    (hdisj : ∀ g1 g2, g1 ≠ GroupName.all → g2 ≠ GroupName.all → g1 ≠ g2 →
      ∀ i1 ∈ fs.images g1, ∀ i2 ∈ fs.images g2, pyStem i1 ≠ pyStem i2)
    (ht : generate_response GroupName.test none fs = Except.ok rtest)
    (htr : generate_response GroupName.train none fs = Except.ok rtrain)
    (hv : generate_response GroupName.valid none fs = Except.ok rvalid) :
    generate_response GroupName.all none fs =
      Except.ok (sort_by_name (rtrain ++ rtest ++ rvalid)) ∧
    (sort_by_name (rtrain ++ rtest ++ rvalid)).Perm (rtrain ++ rtest ++ rvalid) := by
  unfold generate_response at ht htr hv ⊢
  rw [if_neg (by decide : ¬ GroupName.test = GroupName.all)] at ht
  rw [if_neg (by decide : ¬ GroupName.train = GroupName.all)] at htr
  rw [if_neg (by decide : ¬ GroupName.valid = GroupName.all)] at hv
  rw [if_pos rfl]
  cases hpt : mapE (fun image => process_image image none GroupName.test fs)
      (fs.images GroupName.test) with
  | error e =>
    simp only [prepare_group_data, bind, Except.bind, hpt] at ht
    exact Except.noConfusion ht
  | ok pt =>
  cases hptr : mapE (fun image => process_image image none GroupName.train fs)
      (fs.images GroupName.train) with
  | error e =>
    simp only [prepare_group_data, bind, Except.bind, hptr] at htr
    exact Except.noConfusion htr
  | ok ptr =>
  cases hpv : mapE (fun image => process_image image none GroupName.valid fs)
      (fs.images GroupName.valid) with
  | error e =>
    simp only [prepare_group_data, bind, Except.bind, hpv] at hv
    exact Except.noConfusion hv
  | ok pv =>
  simp only [prepare_group_data, bind, Except.bind, hpt, hptr, hpv, pure, Except.pure,
    Except.ok.injEq] at ht htr hv
  simp only [prepare_all_data, bind, Except.bind, hpt, hptr, hpv, pure, Except.pure]
  refine ⟨congrArg Except.ok ?_, sort_by_name_perm _⟩
  subst ht htr hv
  rw [filter_empty_append, filter_empty_append]
  apply sorted_fiber_ext (sort_by_name_sorted _) (sort_by_name_sorted _)
  intro n
  rw [sort_by_name_filter, sort_by_name_filter]
  rw [List.filter_append, List.filter_append, List.filter_append, List.filter_append]
  rw [sort_by_name_filter, sort_by_name_filter, sort_by_name_filter]
  suffices hsw : (filter_empty pt).filter (fun r => r.filename == n) ++
      (filter_empty ptr).filter (fun r => r.filename == n) =
      (filter_empty ptr).filter (fun r => r.filename == n) ++
      (filter_empty pt).filter (fun r => r.filename == n) by
    rw [← hsw]
  by_cases hA : (filter_empty pt).filter (fun r => r.filename == n) = []
  · rw [hA, List.append_nil, List.nil_append]
  · have hB : (filter_empty ptr).filter (fun r => r.filename == n) = [] := by
      by_contra hB
      obtain ⟨ra, hra⟩ := List.exists_mem_of_ne_nil _ hA
      obtain ⟨rb, hrb⟩ := List.exists_mem_of_ne_nil _ hB
      obtain ⟨hraf, hran⟩ := List.mem_filter.mp hra
      obtain ⟨hrbf, hrbn⟩ := List.mem_filter.mp hrb
      obtain ⟨i, hi, hsi⟩ := mem_processed_stem hpt hraf
      obtain ⟨j, hj, hsj⟩ := mem_processed_stem hptr hrbf
      have hstem : pyStem i = pyStem j := by
        rw [← hsi, ← hsj]
        rw [eq_of_beq hran, eq_of_beq hrbn]
      exact hdisj GroupName.test GroupName.train (by decide) (by decide) (by decide)
        i hi j hj hstem
    rw [hB, List.append_nil, List.nil_append]

/-- Witness for C4 on the three-group filesystem `fsThree`. -/
theorem c4_witness :
    (∀ g1 g2, g1 ≠ GroupName.all → g2 ≠ GroupName.all → g1 ≠ g2 →
      ∀ i1 ∈ fsThree.images g1, ∀ i2 ∈ fsThree.images g2, pyStem i1 ≠ pyStem i2) ∧
    generate_response GroupName.test none fsThree =
      Except.ok [build_res_object "t" "/images/test/images/t.jpg" ["elbow positive"]
        [⟨"elbow positive", [["0.1", "0.2"]]⟩]] ∧
    generate_response GroupName.train none fsThree =
      Except.ok [build_res_object "r" "/images/train/images/r.jpg" ["fingers positive"]
        [⟨"fingers positive", [["0.3", "0.4"]]⟩]] ∧
    generate_response GroupName.valid none fsThree =
      Except.ok [build_res_object "v" "/images/valid/images/v.jpg" ["humerus"]
        [⟨"humerus", [["0.5", "0.6"]]⟩]] ∧
    (generate_response GroupName.all none fsThree =
      Except.ok (sort_by_name
        ([build_res_object "r" "/images/train/images/r.jpg" ["fingers positive"]
            [⟨"fingers positive", [["0.3", "0.4"]]⟩]] ++
         [build_res_object "t" "/images/test/images/t.jpg" ["elbow positive"]
            [⟨"elbow positive", [["0.1", "0.2"]]⟩]] ++
         [build_res_object "v" "/images/valid/images/v.jpg" ["humerus"]
            [⟨"humerus", [["0.5", "0.6"]]⟩]])) ∧
      (sort_by_name
        ([build_res_object "r" "/images/train/images/r.jpg" ["fingers positive"]
            [⟨"fingers positive", [["0.3", "0.4"]]⟩]] ++
         [build_res_object "t" "/images/test/images/t.jpg" ["elbow positive"]
            [⟨"elbow positive", [["0.1", "0.2"]]⟩]] ++
         [build_res_object "v" "/images/valid/images/v.jpg" ["humerus"]
            [⟨"humerus", [["0.5", "0.6"]]⟩]])).Perm
        ([build_res_object "r" "/images/train/images/r.jpg" ["fingers positive"]
            [⟨"fingers positive", [["0.3", "0.4"]]⟩]] ++
         [build_res_object "t" "/images/test/images/t.jpg" ["elbow positive"]
            [⟨"elbow positive", [["0.1", "0.2"]]⟩]] ++
         [build_res_object "v" "/images/valid/images/v.jpg" ["humerus"]
            [⟨"humerus", [["0.5", "0.6"]]⟩]])) :=
  ⟨by decide, by decide, by decide, by decide,
    c4_all_sorted_union fsThree
      [build_res_object "t" "/images/test/images/t.jpg" ["elbow positive"]
        [⟨"elbow positive", [["0.1", "0.2"]]⟩]]
      [build_res_object "r" "/images/train/images/r.jpg" ["fingers positive"]
        [⟨"fingers positive", [["0.3", "0.4"]]⟩]]
      [build_res_object "v" "/images/valid/images/v.jpg" ["humerus"]
        [⟨"humerus", [["0.5", "0.6"]]⟩]]
      (by decide) (by decide) (by decide) (by decide)⟩
